import Mathlib

/-!
Shallow embedding of the Titan Bitcoin/Runes indexer (Rust) for checking its
natural-language specification.  Each definition mirrors one Rust item; the
source path is given next to it.  Machine integers are modelled as `Nat`
(unsigned) or `Int` (signed) with explicit bounds where overflow matters;
fallible operations return `Option` or `Except`.
-/

set_option maxRecDepth 10000

namespace Titan

/-! ### Store errors (src/indexer/src/index/store.rs, `enum StoreError`) -/

inductive StoreError where
  | db
  | hexToArray
  | notFound (msg : String)
  | deserialize
deriving DecidableEq, Repr

/-- StoreError::is_not_found (src/indexer/src/index/store.rs). -/
def StoreError.is_not_found : StoreError → Bool
  | .notFound _ => true
  | _ => false

/-! ### u128 / i128 arithmetic helpers

The Rust code uses `u128` counters updated through `checked_add_signed`
with an `i128` delta and casts `u128` amounts with `as i128`
(two's-complement reinterpretation). -/

def U128_MOD : Nat := 2 ^ 128

/-- u128::checked_add_signed: `none` models the Rust `None` (overflow). -/
def checked_add_signed (n : Nat) (i : Int) : Option Nat :=
  let r : Int := (n : Int) + i
  if 0 ≤ r ∧ r < (U128_MOD : Int) then some r.toNat else none

/-- The Rust cast `amount as i128` on a `u128` value: two's-complement
reinterpretation. -/
def u128_as_i128 (n : Nat) : Int :=
  if n < 2 ^ 127 then (n : Int) else (n : Int) - (U128_MOD : Int)

/-! ### RuneId and its byte encoding (src/types/src/rune_id.rs)

The `_padding` field of the Rust struct is memory-layout only and does not
appear in `to_bytes`; it is omitted here. -/

structure RuneId where
  block : Nat
  tx : Nat
deriving DecidableEq, Repr

/-- Little-endian byte decomposition: `w` bytes of `n`
(models `u64::to_le_bytes` / `u32::to_le_bytes`). -/
def leBytes : Nat → Nat → List Nat
  | 0, _ => []
  | w + 1, n => n % 256 :: leBytes w (n / 256)

/-- RuneId::to_bytes: 8-byte little-endian block followed by 4-byte
little-endian tx (12 bytes total). -/
def RuneId.to_bytes (r : RuneId) : List Nat :=
  leBytes 8 r.block ++ leBytes 4 r.tx

/-- Lexicographic `≤` on equal-length byte arrays, as the derived `Ord`
on `[u8; 12]` compares them in Rust. -/
def bytesLe : List Nat → List Nat → Bool
  | [], [] => true
  | [], _ :: _ => true
  | _ :: _, [] => false
  | a :: as, b :: bs => decide (a < b) || (decide (a = b) && bytesLe as bs)

/-- RuneId::get_sorted_rune_ids (src/types/src/rune_id.rs). -/
def RuneId.get_sorted_rune_ids (rune0 rune1 : RuneId) : List Nat × List Nat :=
  let rune0_bytes := rune0.to_bytes
  let rune1_bytes := rune1.to_bytes
  if bytesLe rune0_bytes rune1_bytes then (rune0_bytes, rune1_bytes)
  else (rune1_bytes, rune0_bytes)

/-- Numeric order on the (block, tx) pairs of two RuneIds, as the spec's
"numeric order on (block, tx)". -/
def RuneId.numLe (a b : RuneId) : Prop :=
  a.block < b.block ∨ (a.block = b.block ∧ a.tx ≤ b.tx)

instance (a b : RuneId) : Decidable (RuneId.numLe a b) := by
  unfold RuneId.numLe; infer_instance

/-! ### Transaction change-set categorisation
(src/indexer/src/index/updater/transaction_update.rs)

`SerializedTxid` (a 32-byte id) is modelled as `Nat`.  The
`block_added_counts` / `block_removed_counts` maps are carried as
functions; they are not read by `categorize_to_change_set`. -/

structure TransactionUpdate where
  mempool_added : Finset Nat
  mempool_removed : Finset Nat
  block_added : Finset Nat
  block_removed : Finset Nat
  block_removed_counts : Nat → Nat
  block_added_counts : Nat → Nat

structure TransactionChangeSet where
  removed : Finset Nat
  added : Finset Nat

/-- TransactionUpdate::categorize_to_change_set. -/
def TransactionUpdate.categorize_to_change_set (u : TransactionUpdate) :
    TransactionChangeSet :=
  let in_added := u.mempool_added ∪ u.block_added
  let in_removed := u.mempool_removed ∪ u.block_removed
  let newly_added := in_added \ in_removed
  let fully_removed := in_removed \ in_added
  { removed := fully_removed, added := newly_added }

/-! ### Event types and TCP subscription
(src/indexer/src/subscription/tcp_subscription.rs)

Modelled from the spec: the `EventType` enum, the `Event` payload and
`TcpSubscriptionRequest` live in the `titan-types` crates whose
`event.rs` / `subscription.rs` files are not part of the sources; the
spec lists the nine `EventType` values and the request shape
`{"subscribe":[type,...]}`, and each event carries its type. -/

inductive EventType where
  | newBlock
  | reorg
  | runeEtched
  | runeMinted
  | runeBurned
  | runeTransferred
  | addressModified
  | transactionsAdded
  | transactionsReplaced
deriving DecidableEq, Repr

/-- Modelled from the spec: an event is identified by its `EventType`
(the payload is opaque for the dispatcher, kept as a `Nat`). -/
structure Event where
  etype : EventType
  payload : Nat
deriving DecidableEq, Repr

/-- Modelled from the spec: the handshake JSON line
`{"subscribe":["<EventType>",...]}`. -/
structure TcpSubscriptionRequest where
  subscribe : List EventType
deriving DecidableEq, Repr

/-- Outcome `tokio::sync::mpsc::Sender::try_send` would yield for a given
subscriber channel in its current state. -/
inductive TrySendOutcome where
  | ok
  | full
  | closed
deriving DecidableEq, Repr

/-- One registered TCP subscription; `channel` abstracts the bounded
channel by the outcome `try_send` produces on it. -/
structure TcpSubscription where
  id : Nat
  event_types : List EventType
  channel : TrySendOutcome
deriving DecidableEq, Repr

/-- TcpSubscriptionManager::broadcast: iterate the registered
subscriptions, `try_send` to those subscribed to the event's type,
collect the ids whose channel was full or closed, then unregister those
ids.  Returns (ids the event was delivered to, remaining subscriptions). -/
def broadcast (subs : List TcpSubscription) (event : Event) :
    List Nat × List TcpSubscription :=
  let event_type := event.etype
  let failed_ids := (subs.filter fun sub =>
    decide (event_type ∈ sub.event_types) && decide (sub.channel ≠ .ok)).map
      (fun sub => sub.id)
  let delivered := (subs.filter fun sub =>
    decide (event_type ∈ sub.event_types) && decide (sub.channel = .ok)).map
      (fun sub => sub.id)
  (delivered, subs.filter fun sub => decide (sub.id ∉ failed_ids))

/-! ### TCP handshake (read_handshake_request,
src/indexer/src/subscription/tcp_subscription.rs)

Lines are modelled as `List Char` because the framed line codec hands the
function one decoded line at a time.  `trim` mirrors `str::trim`
(whitespace stripped from both ends); JSON parsing is external
(serde_json), so it is a parameter.  The returned list holds the lines
the server wrote back (the PONG replies). -/

def trimChars (s : List Char) : List Char :=
  ((s.dropWhile Char.isWhitespace).reverse.dropWhile Char.isWhitespace).reverse

def PING : List Char := ['P', 'I', 'N', 'G']

def PONG : List Char := ['P', 'O', 'N', 'G']

def MAX_PREAMBLE_LINES : Nat := 10

/-- Result of the handshake: the request, or one of the error exits of
read_handshake_request (connection closed = input exhausted). -/
inductive HandshakeResult where
  | ok (req : TcpSubscriptionRequest)
  | errTooManyPreamble
  | errInvalidJson
  | errConnClosed
deriving DecidableEq, Repr

/-- read_handshake_request, as a function of the incoming lines and the
running preamble count (0 at the start). -/
def read_handshake_request
    (parse : List Char → Option TcpSubscriptionRequest) :
    List (List Char) → Nat → List (List Char) × HandshakeResult
  | [], _ => ([], .errConnClosed)
  | line :: rest, preamble_lines =>
    let trimmed := trimChars line
    if trimmed.isEmpty then
      if preamble_lines + 1 ≥ MAX_PREAMBLE_LINES then ([], .errTooManyPreamble)
      else read_handshake_request parse rest (preamble_lines + 1)
    else if trimmed = PING then
      if preamble_lines + 1 ≥ MAX_PREAMBLE_LINES then ([PONG], .errTooManyPreamble)
      else
        let next := read_handshake_request parse rest (preamble_lines + 1)
        (PONG :: next.1, next.2)
    else if trimmed.head? = some '\x7b' then
      match parse trimmed with
      | some req => ([], .ok req)
      | none => ([], .errInvalidJson)
    else
      if preamble_lines + 1 ≥ MAX_PREAMBLE_LINES then ([], .errTooManyPreamble)
      else read_handshake_request parse rest (preamble_lines + 1)

/-! ### Core data model

`Txid`, block hashes and script pubkeys are opaque byte strings in the
source; they are modelled as `Nat`. -/

structure OutPoint where
  txid : Nat
  vout : Nat
deriving DecidableEq, Repr

/-- RuneAmount (src/types-core/src/rune_amount.rs): amount is u128. -/
structure RuneAmount where
  rune_id : RuneId
  amount : Nat
deriving DecidableEq, Repr

/-- Modelled from the spec: the outpoint entry (titan-types `tx_out.rs` is
not among the sources) — satoshi value, rune balances, spent flag. -/
structure TxOutEntry where
  value : Nat
  runes : List RuneAmount
  spent : Bool
deriving DecidableEq, Repr

/-- Mint terms of a rune (ordinals::Terms): amount, cap, height window,
offset window. -/
structure Terms where
  amount : Option Nat
  cap : Option Nat
  height_lo : Option Nat
  height_hi : Option Nat
  offset_lo : Option Nat
  offset_hi : Option Nat
deriving DecidableEq, Repr

/-- SpacedRune: the rune name value (u128) plus spacer bits. -/
structure SpacedRune where
  rune : Nat
  spacers : Nat
deriving DecidableEq, Repr

/-- RuneEntry (models::RuneEntry as constructed in
src/src/index/updater/transaction_updater.rs): per-rune record with the
four counters `mints`, `burned`, `pending_mints`, `pending_burns`. -/
structure RuneEntry where
  block : Nat
  burned : Nat
  divisibility : Nat
  etching : Nat
  terms : Option Terms
  mints : Nat
  number : Nat
  premine : Nat
  spaced_rune : SpacedRune
  symbol : Option Nat
  pending_burns : Nat
  pending_mints : Nat
  inscription_id : Option Nat
  timestamp : Nat
  turbo : Bool
deriving DecidableEq, Repr

/-- Modelled from the spec: the transaction state-change (titan-types) —
consumed inputs, produced outputs, optional etching (RuneId, Rune),
optional mint, burned map (RuneId → amount); matches the field uses in
src/src/index/updater/transaction_updater.rs and
src/indexer/src/index/updater/cache.rs. -/
structure TransactionStateChange where
  inputs : List OutPoint
  outputs : List TxOutEntry
  etched : Option (RuneId × Nat)
  minted : Option RuneAmount
  burned : List (RuneId × Nat)
deriving DecidableEq, Repr

/-- Modelled from the spec: "For each touched RuneId, append the txid to
that rune's transaction list" — the rune ids a state change touches
(its `rune_ids()` accessor lives in titan-types, outside the sources). -/
def TransactionStateChange.rune_ids (x : TransactionStateChange) : List RuneId :=
  ((x.outputs.flatMap fun o => o.runes.map fun r => r.rune_id) ++
    x.burned.map Prod.fst ++
    (x.minted.map fun m => m.rune_id).toList ++
    (x.etched.map Prod.fst).toList).dedup

/-- Modelled from the spec: block record — height, header (represented by
the hash `block_hash()` computes from it), txid list, etched rune ids. -/
structure Block where
  height : Nat
  header_hash : Nat
  tx_ids : List Nat
  etched_runes : List RuneId
deriving DecidableEq, Repr

/-! ### Batched updater cache (src/indexer/src/index/updater/cache.rs)

The staging maps are `HashMap`s in Rust; they are modelled as
association lists where insertion conses and lookup takes the first hit
(the same get-after-insert semantics).  Only the fields the verified
code paths touch are carried. -/

/-- Association-list lookup (models HashMap::get on the staging maps). -/
def lookupA {α β : Type} [DecidableEq α] (k : α) : List (α × β) → Option β
  | [] => none
  | (a, b) :: rest => if a = k then some b else lookupA k rest

structure BatchUpdate where
  rune_count : Nat
  block_count : Nat
  purged_blocks_count : Nat
  blocks : List (Nat × Block)
  block_hashes : List (Nat × Nat)
  txouts : List (OutPoint × TxOutEntry)
  tx_state_changes : List (Nat × TransactionStateChange)
  runes : List (RuneId × RuneEntry)
  rune_ids : List (Nat × RuneId)
  rune_numbers : List (Nat × RuneId)
  rune_transactions : List (RuneId × List Nat)
  inscriptions : List (Nat × Nat)

structure BatchDelete where
  tx_outs : Finset OutPoint
  script_pubkeys_outpoints : Finset OutPoint
  tx_state_changes : Finset Nat

structure UpdaterCacheSettings where
  max_recoverable_reorg_depth : Nat
  index_spent_outputs : Bool
  mempool : Bool
deriving DecidableEq, Repr

/-- Read view of the persistent store behind the cache (the `db.read()`
accessors the cache and updaters call). -/
structure StoreEnv where
  get_block_hash : Nat → Except StoreError Nat
  get_block_by_hash : Nat → Except StoreError Block
  get_tx_out : OutPoint → Except StoreError TxOutEntry
  get_tx_state_changes : Nat → Except StoreError TransactionStateChange
  get_rune : RuneId → Except StoreError RuneEntry

structure UpdaterCache where
  update : BatchUpdate
  delete : BatchDelete
  events : List Event
  first_block_height : Nat
  last_block_height : Option Nat
  settings : UpdaterCacheSettings

def UpdaterCache.get_runes_count (c : UpdaterCache) : Nat :=
  c.update.rune_count

def UpdaterCache.get_block_count (c : UpdaterCache) : Nat :=
  c.update.block_count

def UpdaterCache.get_purged_blocks_count (c : UpdaterCache) : Nat :=
  c.update.purged_blocks_count

def UpdaterCache.increment_block_count (c : UpdaterCache) : UpdaterCache :=
  { c with
    last_block_height := some c.update.block_count,
    update := { c.update with block_count := c.update.block_count + 1 } }

/-- UpdaterCache::set_new_block; the `assert_eq!(get_block_count, height)`
is modelled by returning `none` (the Rust code aborts) when the block's
height is not the cache's current block count. -/
def UpdaterCache.set_new_block (c : UpdaterCache) (block : Block) :
    Option UpdaterCache :=
  if c.get_block_count = block.height then
    let hash := block.header_hash
    let c := { c with update := { c.update with
      blocks := (hash, block) :: c.update.blocks } }
    let c := { c with update := { c.update with
      block_hashes := (c.get_block_count, hash) :: c.update.block_hashes } }
    some c.increment_block_count
  else
    none

def UpdaterCache.increment_runes_count (c : UpdaterCache) : UpdaterCache :=
  { c with update := { c.update with rune_count := c.update.rune_count + 1 } }

def UpdaterCache.get_block (c : UpdaterCache) (env : StoreEnv) (hash : Nat) :
    Except StoreError Block :=
  match lookupA hash c.update.blocks with
  | some block => .ok block
  | none => env.get_block_by_hash hash

def UpdaterCache.get_block_by_height (c : UpdaterCache) (env : StoreEnv)
    (height : Nat) : Except StoreError Block :=
  match lookupA height c.update.block_hashes with
  | some hash => c.get_block env hash
  | none =>
    match env.get_block_hash height with
    | .ok hash => c.get_block env hash
    | .error e => .error e

def UpdaterCache.get_tx_out (c : UpdaterCache) (env : StoreEnv)
    (outpoint : OutPoint) : Except StoreError TxOutEntry :=
  match lookupA outpoint c.update.txouts with
  | some tx_out => .ok tx_out
  | none => env.get_tx_out outpoint

def UpdaterCache.set_tx_out (c : UpdaterCache) (outpoint : OutPoint)
    (tx_out : TxOutEntry) : UpdaterCache :=
  { c with update := { c.update with txouts := (outpoint, tx_out) :: c.update.txouts } }

def UpdaterCache.set_tx_state_changes (c : UpdaterCache) (txid : Nat)
    (tx_state_changes : TransactionStateChange) : UpdaterCache :=
  { c with update := { c.update with
      tx_state_changes := (txid, tx_state_changes) :: c.update.tx_state_changes } }

/-- UpdaterCache::add_rune_transaction: entry(rune_id).or_insert(vec![]).push(txid). -/
def UpdaterCache.add_rune_transaction (c : UpdaterCache) (rune_id : RuneId)
    (txid : Nat) : UpdaterCache :=
  let prev := (lookupA rune_id c.update.rune_transactions).getD []
  { c with update := { c.update with
      rune_transactions := (rune_id, prev ++ [txid]) :: c.update.rune_transactions } }

def UpdaterCache.get_rune (c : UpdaterCache) (env : StoreEnv) (rune_id : RuneId) :
    Except StoreError RuneEntry :=
  match lookupA rune_id c.update.runes with
  | some rune => .ok rune
  | none => env.get_rune rune_id

def UpdaterCache.set_rune (c : UpdaterCache) (rune_id : RuneId)
    (rune : RuneEntry) : UpdaterCache :=
  { c with update := { c.update with runes := (rune_id, rune) :: c.update.runes } }

def UpdaterCache.set_rune_id (c : UpdaterCache) (rune : Nat)
    (rune_id : RuneId) : UpdaterCache :=
  { c with update := { c.update with rune_ids := (rune, rune_id) :: c.update.rune_ids } }

def UpdaterCache.set_rune_id_number (c : UpdaterCache) (number : Nat)
    (rune_id : RuneId) : UpdaterCache :=
  { c with update := { c.update with
      rune_numbers := (number, rune_id) :: c.update.rune_numbers } }

def UpdaterCache.set_inscription (c : UpdaterCache) (inscription_id : Nat)
    (inscription : Nat) : UpdaterCache :=
  { c with update := { c.update with
      inscriptions := (inscription_id, inscription) :: c.update.inscriptions } }

/-- UpdaterCache::should_flush: the staged block window (`update.blocks`)
against `max_size`. -/
def UpdaterCache.should_flush (c : UpdaterCache) (max_size : Nat) : Bool :=
  c.update.blocks.length ≥ max_size

/-- Per-txid read of get_txs_state_changes: the staging map first, then
the store (the Rust batch fetch collects exactly these per-txid results;
a store failure propagates in both forms). -/
def UpdaterCache.get_tx_state_change_one (c : UpdaterCache) (env : StoreEnv)
    (txid : Nat) : Except StoreError TransactionStateChange :=
  match lookupA txid c.update.tx_state_changes with
  | some t => .ok t
  | none => env.get_tx_state_changes txid

/-- Body of the inner `for txin in tx_state_changes.inputs` loop of
purge_block: stage the consumed outpoint for deletion iff spent outputs
are not indexed, and its reverse script-pubkey entry always. -/
def UpdaterCache.stage_input_deletes (a : UpdaterCache)
    (index_spent_outputs : Bool) (txin : OutPoint) : UpdaterCache :=
  let a := if !index_spent_outputs then
      { a with delete := { a.delete with tx_outs := insert txin a.delete.tx_outs } }
    else a
  { a with delete := { a.delete with
      script_pubkeys_outpoints := insert txin a.delete.script_pubkeys_outpoints } }

/-- Body of the `for txid in txids` loop of purge_block: stage the input
deletions of the tx's state change, then the state change itself. -/
def UpdaterCache.stage_tx_deletes (a : UpdaterCache) (env : StoreEnv)
    (index_spent_outputs : Bool) (txid : Nat) : Except StoreError UpdaterCache :=
  match a.get_tx_state_change_one env txid with
  | .error e => .error e
  | .ok tx_state_changes =>
    let a := tx_state_changes.inputs.foldl
      (fun acc txin => acc.stage_input_deletes index_spent_outputs txin) a
    .ok { a with delete := { a.delete with
        tx_state_changes := insert txid a.delete.tx_state_changes } }

/-- The `for txid in txids` loop of purge_block, with the `?` operator
returning the first store error. -/
def UpdaterCache.stage_txids (env : StoreEnv) (index_spent_outputs : Bool) :
    List Nat → UpdaterCache → Except StoreError UpdaterCache
  | [], a => .ok a
  | txid :: rest, a =>
    match a.stage_tx_deletes env index_spent_outputs txid with
    | .error e => .error e
    | .ok a2 => UpdaterCache.stage_txids env index_spent_outputs rest a2

/-- UpdaterCache::purge_block: stage deletions for every tx of the block
at `height` — consumed outpoints iff spent outputs are not indexed,
reverse script-pubkey entries always, the tx state-change always — then
set the purged-blocks watermark to `height`. -/
def UpdaterCache.purge_block (c : UpdaterCache) (env : StoreEnv) (height : Nat)
    (index_spent_outputs : Bool) : Except StoreError UpdaterCache :=
  match c.get_block_by_height env height with
  | .error e => .error e
  | .ok block =>
    match UpdaterCache.stage_txids env index_spent_outputs block.tx_ids c with
    | .error e => .error e
    | .ok c2 => .ok { c2 with update := { c2.update with purged_blocks_count := height } }

/-- Purge every height of the list in order (the
`for i in from..to { self.purge_block(i, ...)? }` loop). -/
def UpdaterCache.purge_range (env : StoreEnv) (index_spent_outputs : Bool) :
    List Nat → UpdaterCache → Except StoreError UpdaterCache
  | [], c => .ok c
  | i :: rest, c =>
    match c.purge_block env i index_spent_outputs with
    | .error e => .error e
    | .ok c2 => UpdaterCache.purge_range env index_spent_outputs rest c2

/-- UpdaterCache::prepare_to_delete.  `checked_sub(x).unwrap_or(0)` is
`Nat` subtraction; the `checked_sub` on the window tip yields `none`
(no purge) when the tip is below the reorg depth. -/
def UpdaterCache.prepare_to_delete (c : UpdaterCache) (env : StoreEnv)
    (max_recoverable_reorg_depth : Nat) (index_spent_outputs : Bool) :
    Except StoreError UpdaterCache :=
  match c.last_block_height with
  | none => .ok c
  | some last_block_height =>
    let from0 := c.first_block_height - (max_recoverable_reorg_depth + 1)
    if max_recoverable_reorg_depth ≤ last_block_height then
      let to_block_height_to_purge := last_block_height - max_recoverable_reorg_depth
      let from_block_height_to_purge := max from0 (c.update.purged_blocks_count + 1)
      UpdaterCache.purge_range env index_spent_outputs
        (List.range' from_block_height_to_purge
          (to_block_height_to_purge - from_block_height_to_purge)) c
    else
      .ok c

/-! ### Transaction updater (src/src/index/updater/transaction_updater.rs)

The event sender is `None` at both call sites in the sources
(index_block and index_tx construct `TransactionUpdater::new(cache, None, _)`),
so event emission has no effect and is not modelled. -/

inductive TransactionUpdaterError where
  | store (e : StoreError)
  | eventSender
  | overflow (loc : String)
  | noArtifactFound (txid : Nat)
deriving DecidableEq, Repr

/-- TransactionUpdater::update_mints. -/
def update_mints (c : UpdaterCache) (env : StoreEnv) (mempool : Bool)
    (rune_id : RuneId) (amount : Int) :
    Except TransactionUpdaterError UpdaterCache :=
  match c.get_rune env rune_id with
  | .error e => .error (.store e)
  | .ok rune_entry =>
    if mempool then
      match checked_add_signed rune_entry.pending_mints amount with
      | none => .error (.overflow "mints")
      | some result =>
        .ok (c.set_rune rune_id { rune_entry with pending_mints := result })
    else
      match checked_add_signed rune_entry.mints amount with
      | none => .error (.overflow "mints")
      | some result =>
        .ok (c.set_rune rune_id { rune_entry with mints := result })

/-- TransactionUpdater::update_burn_balance.  Note: as in the source, the
non-mempool branch reads `pending_burns` (not `burned`) before writing
the sum into `burned`. -/
def update_burn_balance (c : UpdaterCache) (env : StoreEnv) (mempool : Bool)
    (rune_id : RuneId) (amount : Int) :
    Except TransactionUpdaterError UpdaterCache :=
  match c.get_rune env rune_id with
  | .error e => .error (.store e)
  | .ok rune_entry =>
    if mempool then
      match checked_add_signed rune_entry.pending_burns amount with
      | none => .error (.overflow "burn")
      | some result =>
        .ok (c.set_rune rune_id { rune_entry with pending_burns := result })
    else
      match checked_add_signed rune_entry.pending_burns amount with
      | none => .error (.overflow "burn")
      | some result =>
        .ok (c.set_rune rune_id { rune_entry with burned := result })

/-- TransactionUpdater::burn_rune (amount is u128, cast `as i128`). -/
def burn_rune (c : UpdaterCache) (env : StoreEnv) (mempool : Bool)
    (rune_id : RuneId) (amount : Nat) :
    Except TransactionUpdaterError UpdaterCache :=
  update_burn_balance c env mempool rune_id (u128_as_i128 amount)

/-- TransactionUpdater::mint_rune: mints increase by exactly 1. -/
def mint_rune (c : UpdaterCache) (env : StoreEnv) (mempool : Bool)
    (rune_id : RuneId) (_amount : Nat) :
    Except TransactionUpdaterError UpdaterCache :=
  update_mints c env mempool rune_id 1

/-- TransactionUpdater::update_spendable_input: mark the outpoint spent;
a NotFound lookup is silently skipped, any other store error propagates. -/
def update_spendable_input (c : UpdaterCache) (env : StoreEnv)
    (outpoint : OutPoint) (spent : Bool) :
    Except TransactionUpdaterError UpdaterCache :=
  match c.get_tx_out env outpoint with
  | .ok tx_out => .ok (c.set_tx_out outpoint { tx_out with spent := spent })
  | .error (.notFound _) => .ok c
  | .error e => .error (.store e)

/-- Etching payload of a deciphered Runestone (ordinals::Etching). -/
structure EtchingData where
  divisibility : Option Nat
  premine : Option Nat
  spacers : Option Nat
  symbol : Option Nat
  terms : Option Terms
  turbo : Bool
deriving DecidableEq, Repr

/-- Deciphered artifact.  The source unwraps the runestone's etching
(`etching.unwrap()`, unreachable for `etched` state changes produced by
the parser), so the constructor carries the etching directly. -/
inductive Artifact where
  | cenotaph
  | runestone (etching : EtchingData)
deriving DecidableEq, Repr

/-- TransactionUpdater::create_rune_entry.  `index_rune_icon` inspects the
raw transaction (external inscription parsing); its result is the
`inscription` argument. -/
def create_rune_entry (c : UpdaterCache) (block_time txid : Nat)
    (inscription : Option (Nat × Nat)) (id : RuneId) (rune : Nat)
    (artifact : Artifact) : UpdaterCache :=
  let c := c.increment_runes_count
  let c := match inscription with
    | some (iid, ins) => c.set_inscription iid ins
    | none => c
  let entry : RuneEntry :=
    match artifact with
    | .cenotaph =>
      { block := id.block, burned := 0, divisibility := 0, etching := txid,
        terms := none, mints := 0, number := c.get_runes_count, premine := 0,
        spaced_rune := { rune := rune, spacers := 0 }, symbol := none,
        pending_burns := 0, pending_mints := 0,
        inscription_id := inscription.map Prod.fst,
        timestamp := block_time, turbo := false }
    | .runestone etching =>
      { block := id.block, burned := 0,
        divisibility := etching.divisibility.getD 0, etching := txid,
        terms := etching.terms, mints := 0, number := c.get_runes_count,
        premine := etching.premine.getD 0,
        spaced_rune := { rune := rune, spacers := etching.spacers.getD 0 },
        symbol := etching.symbol, pending_burns := 0, pending_mints := 0,
        inscription_id := inscription.map Prod.fst,
        timestamp := block_time, turbo := etching.turbo }
  ((c.set_rune id entry).set_rune_id_number c.get_runes_count id).set_rune_id rune id

/-- The `for (rune_id, amount) in burned` loop of save. -/
def apply_burns (env : StoreEnv) (mempool : Bool) :
    List (RuneId × Nat) → UpdaterCache → Except TransactionUpdaterError UpdaterCache
  | [], c => .ok c
  | p :: rest, c =>
    match burn_rune c env mempool p.1 p.2 with
    | .error e => .error e
    | .ok c2 => apply_burns env mempool rest c2

/-- The optional mint step of save. -/
def apply_mint (c : UpdaterCache) (env : StoreEnv) (mempool : Bool) :
    Option RuneAmount → Except TransactionUpdaterError UpdaterCache
  | some minted => mint_rune c env mempool minted.rune_id minted.amount
  | none => .ok c

/-- The optional etching step of save (`decipher` is the external
`Runestone::decipher(transaction)` result, `inscription` the external
`index_rune_icon` result). -/
def apply_etched (c : UpdaterCache) (block_time txid : Nat)
    (decipher : Option Artifact) (inscription : Option (Nat × Nat)) :
    Option (RuneId × Nat) → Except TransactionUpdaterError UpdaterCache
  | some (id, rune) =>
    match decipher with
    | none => .error (.noArtifactFound txid)
    | some artifact =>
      .ok (create_rune_entry c block_time txid inscription id rune artifact)
  | none => .ok c

/-- The `for tx_in in inputs` loop of save. -/
def spend_inputs (env : StoreEnv) :
    List OutPoint → UpdaterCache → Except TransactionUpdaterError UpdaterCache
  | [], c => .ok c
  | tx_in :: rest, c =>
    match update_spendable_input c env tx_in true with
    | .error e => .error e
    | .ok c2 => spend_inputs env rest c2

/-- The produced-outputs loop of save: create a cached outpoint per
vout whose runes are non-empty. -/
def create_outputs (c : UpdaterCache) (txid : Nat)
    (outputs : List TxOutEntry) : UpdaterCache :=
  outputs.enum.foldl (fun c p =>
    if p.2.runes.isEmpty then c
    else c.set_tx_out { txid := txid, vout := p.1 } p.2) c

/-- The `for rune_id in rune_ids` loop of save. -/
def add_rune_txids (txid : Nat) :
    List RuneId → UpdaterCache → UpdaterCache
  | [], c => c
  | rune_id :: rest, c => add_rune_txids txid rest (c.add_rune_transaction rune_id txid)

/-- TransactionUpdater::save: burns, optional mint, optional etching,
spend inputs, create outputs, record the state change, append to the
touched runes' transaction lists. -/
def TransactionUpdater.save (c : UpdaterCache) (env : StoreEnv) (mempool : Bool)
    (decipher : Option Artifact) (inscription : Option (Nat × Nat))
    (block_time _height txid : Nat) (x : TransactionStateChange) :
    Except TransactionUpdaterError UpdaterCache :=
  match apply_burns env mempool x.burned c with
  | .error e => .error e
  | .ok c =>
    match apply_mint c env mempool x.minted with
    | .error e => .error e
    | .ok c =>
      match apply_etched c block_time txid decipher inscription x.etched with
      | .error e => .error e
      | .ok c =>
        match spend_inputs env x.inputs c with
        | .error e => .error e
        | .ok c =>
          let c := create_outputs c txid x.outputs
          let c := c.set_tx_state_changes txid x
          .ok (add_rune_txids txid x.rune_ids c)

/-! ### Reorg detection (src/src/index/updater/index_updater.rs,
`Updater::detect_reorg`) -/

/-- Outcome of detect_reorg: `Ok(())`, or one of the `ReorgError`
variants. -/
inductive ReorgCheck where
  | ok
  | recoverable (height depth : Nat)
  | unrecoverable
  | storeError (e : StoreError)
  | rpcError
deriving DecidableEq, Repr

/-- Block-hash reads detect_reorg performs: the indexed store and the
bitcoind RPC (either can fail). -/
structure ReorgEnv where
  store_block_hash : Nat → Except StoreError Nat
  rpc_block_hash : Nat → Except Unit Nat

/-- The back-walk of detect_reorg over the given list of depths
(`for depth in 1..max_recoverable_reorg_depth`); `height - depth` is
`saturating_sub`. -/
def detect_reorg_loop (env : ReorgEnv) (height : Nat) : List Nat → ReorgCheck
  | [] => .unrecoverable
  | depth :: rest =>
    let height_to_check := height - depth
    match env.store_block_hash height_to_check with
    | .error e => .storeError e
    | .ok index_block_hash =>
      match env.rpc_block_hash height_to_check with
      | .error _ => .rpcError
      | .ok bitcoind_block_hash =>
        if index_block_hash = bitcoind_block_hash then
          .recoverable height depth
        else
          detect_reorg_loop env height rest

/-- Updater::detect_reorg.  `height.checked_sub(1)` fails only at height
0 (mapped to Unrecoverable); a store error on the previous hash lands in
the `_ => Ok(())` arm. -/
def detect_reorg (env : ReorgEnv) (prev_blockhash : Nat) (height : Nat)
    (max_recoverable_reorg_depth : Nat) : ReorgCheck :=
  match height with
  | 0 => .unrecoverable
  | prev_height + 1 =>
    match env.store_block_hash prev_height with
    | .ok index_prev_blockhash =>
      if index_prev_blockhash = prev_blockhash then .ok
      else detect_reorg_loop env height (List.range' 1 (max_recoverable_reorg_depth - 1))
    | .error _ => .ok

/-! ### Decidability and concrete fixtures used by the theorems -/

instance {ε α : Type} [DecidableEq ε] [DecidableEq α] : DecidableEq (Except ε α) := fun a b =>
  match a, b with
  | .ok x, .ok y => if h : x = y then isTrue (by rw [h]) else isFalse (by simp [h])
  | .error x, .error y => if h : x = y then isTrue (by rw [h]) else isFalse (by simp [h])
  | .ok _, .error _ => isFalse (by simp)
  | .error _, .ok _ => isFalse (by simp)

def emptyBatchUpdate : BatchUpdate :=
  { rune_count := 0, block_count := 0, purged_blocks_count := 0, blocks := [],
    block_hashes := [], txouts := [], tx_state_changes := [], runes := [],
    rune_ids := [], rune_numbers := [], rune_transactions := [], inscriptions := [] }

def emptyBatchDelete : BatchDelete :=
  { tx_outs := ∅, script_pubkeys_outpoints := ∅, tx_state_changes := ∅ }

def defaultSettings : UpdaterCacheSettings :=
  { max_recoverable_reorg_depth := 3, index_spent_outputs := false, mempool := false }

def emptyCache : UpdaterCache :=
  { update := emptyBatchUpdate, delete := emptyBatchDelete, events := [],
    first_block_height := 0, last_block_height := none, settings := defaultSettings }

/-! ### C4 — transaction change-set categorisation -/

/-- C4: categorize_to_change_set returns
added = (mempool_added ∪ block_added) \ (mempool_removed ∪ block_removed) and
removed = (mempool_removed ∪ block_removed) \ (mempool_added ∪ block_added);
consequently a txid present in both an added set and a removed set (across
the two domains) appears in neither returned set. -/
theorem C4_categorize_to_change_set (u : TransactionUpdate) :
    (u.categorize_to_change_set.added
        = (u.mempool_added ∪ u.block_added) \ (u.mempool_removed ∪ u.block_removed)
      ∧ u.categorize_to_change_set.removed
        = (u.mempool_removed ∪ u.block_removed) \ (u.mempool_added ∪ u.block_added))
    ∧ ∀ t : Nat, t ∈ u.mempool_added ∪ u.block_added →
        t ∈ u.mempool_removed ∪ u.block_removed →
        t ∉ u.categorize_to_change_set.added
          ∧ t ∉ u.categorize_to_change_set.removed := by
  refine ⟨⟨rfl, rfl⟩, fun t ha hr => ?_⟩
  constructor
  · simp only [TransactionUpdate.categorize_to_change_set, Finset.mem_sdiff, not_and, not_not]
    exact fun _ => hr
  · simp only [TransactionUpdate.categorize_to_change_set, Finset.mem_sdiff, not_and, not_not]
    exact fun _ => ha

def txUpdateFix : TransactionUpdate :=
  { mempool_added := {1, 2}, mempool_removed := {2, 3}, block_added := {3},
    block_removed := {4}, block_removed_counts := fun _ => 0,
    block_added_counts := fun _ => 0 }

/-- C4 witness: in a concrete update, txid 2 (mempool-added and
mempool-removed) and txid 3 (block-added and mempool-removed) appear in
neither returned set. -/
theorem C4_categorize_witness :
    (2 ∉ txUpdateFix.categorize_to_change_set.added
      ∧ 2 ∉ txUpdateFix.categorize_to_change_set.removed)
    ∧ (3 ∉ txUpdateFix.categorize_to_change_set.added
      ∧ 3 ∉ txUpdateFix.categorize_to_change_set.removed) :=
  ⟨(C4_categorize_to_change_set txUpdateFix).2 2 (by decide) (by decide),
    (C4_categorize_to_change_set txUpdateFix).2 3 (by decide) (by decide)⟩

/-! ### C5 — flush trigger -/

def blkZero : Block := { height := 0, header_hash := 100, tx_ids := [], etched_runes := [] }

def cacheOneBlock : UpdaterCache :=
  { emptyCache with update := { emptyBatchUpdate with blocks := [(100, blkZero)] } }

/-- C5 counterexample: with exactly max (= 1) blocks staged in the window,
should_flush returns true, whereas the claim predicts false (it requires
strictly more than max). -/
theorem C5_counterexample :
    cacheOneBlock.should_flush 1 = true
      ∧ ¬ (cacheOneBlock.update.blocks.length > 1) := by
  exact ⟨by decide, by decide⟩

/-- C5 (amended): should_flush(max) returns true exactly when the number of
blocks staged in the current flush window is greater than or equal to max;
in particular with exactly max blocks staged it returns true. -/
theorem C5_should_flush_iff (c : UpdaterCache) (max_size : Nat) :
    c.should_flush max_size = true ↔ c.update.blocks.length ≥ max_size := by
  simp [UpdaterCache.should_flush]

/-! ### C9 — consecutive-height append invariant of set_new_block -/

/-- C9: under the precondition block.height = block_count, set_new_block
stages the hash→block and height→hash entries and increments block_count
by exactly one (recording the appended height as last_block_height);
for any block violating the precondition the internal assertion fires
(modelled as `none`), and it never fires otherwise. -/
theorem C9_set_new_block (c : UpdaterCache) (block : Block)
    (h : block.height = c.update.block_count) :
    c.set_new_block block = some
      { c with
        update := { c.update with
          blocks := (block.header_hash, block) :: c.update.blocks,
          block_hashes := (c.update.block_count, block.header_hash) :: c.update.block_hashes,
          block_count := c.update.block_count + 1 },
        last_block_height := some c.update.block_count }
    ∧ ∀ b2 : Block, b2.height ≠ c.update.block_count → c.set_new_block b2 = none := by
  constructor
  · simp [UpdaterCache.set_new_block, UpdaterCache.get_block_count,
      UpdaterCache.increment_block_count, h]
  · intro b2 hne
    simp [UpdaterCache.set_new_block, UpdaterCache.get_block_count]
    exact fun heq => absurd heq.symm hne

/-- C9 witness: appending the height-0 block to the empty cache (whose
block_count is 0) succeeds and bumps block_count to 1; any block of a
different height trips the assertion. -/
theorem C9_set_new_block_witness :
    emptyCache.set_new_block blkZero = some
      { emptyCache with
        update := { emptyCache.update with
          blocks := (blkZero.header_hash, blkZero) :: emptyCache.update.blocks,
          block_hashes :=
            (emptyCache.update.block_count, blkZero.header_hash) :: emptyCache.update.block_hashes,
          block_count := emptyCache.update.block_count + 1 },
        last_block_height := some emptyCache.update.block_count }
    ∧ ∀ b2 : Block, b2.height ≠ emptyCache.update.block_count →
        emptyCache.set_new_block b2 = none :=
  C9_set_new_block emptyCache blkZero (by decide)

/-! ### C1 — mint / burn counter updates in TransactionUpdater::save -/

def ridFix : RuneId := { block := 840000, tx := 1 }

def entryFix : RuneEntry :=
  { block := 840000, burned := 5, divisibility := 0, etching := 0, terms := none,
    mints := 9, number := 0, premine := 0, spaced_rune := { rune := 0, spacers := 0 },
    symbol := none, pending_burns := 0, pending_mints := 0, inscription_id := none,
    timestamp := 0, turbo := false }

def envRuneFix : StoreEnv :=
  { get_block_hash := fun _ => .error (.notFound "block_hash"),
    get_block_by_hash := fun _ => .error (.notFound "block"),
    get_tx_out := fun _ => .error (.notFound "outpoint"),
    get_tx_state_changes := fun _ => .error (.notFound "state change"),
    get_rune := fun r => if r = ridFix then .ok entryFix else .error (.notFound "rune") }

def tscBurn3 : TransactionStateChange :=
  { inputs := [], outputs := [], etched := none, minted := none,
    burned := [(ridFix, 3)] }

def tscMint : TransactionStateChange :=
  { inputs := [], outputs := [], etched := none,
    minted := some { rune_id := ridFix, amount := 100 }, burned := [] }

/-- C1: evaluation of the code at the failing input.  A non-mempool save of
a burn of amount 3 on a rune whose entry holds burned = 5 and
pending_burns = 0 leaves burned = 3 (pending_burns + 3), not 8
(burned + 3): update_burn_balance's non-mempool branch reads
pending_burns where the claim (and spec) require the burned counter; the
mempool cases and the mint cases behave as claimed (shown alongside). -/
theorem C1_burned_counter_bug :
    (((TransactionUpdater.save emptyCache envRuneFix false none none 0 0 7 tscBurn3).toOption.map
        fun c => (c.get_rune envRuneFix ridFix).toOption.map
          fun e => (e.burned, e.pending_burns, e.mints, e.pending_mints))
      = some (some (3, 0, 9, 0)) ∧ (3 : Nat) ≠ 5 + 3)
    ∧ (((TransactionUpdater.save emptyCache envRuneFix true none none 0 0 7 tscBurn3).toOption.map
        fun c => (c.get_rune envRuneFix ridFix).toOption.map
          fun e => (e.burned, e.pending_burns, e.mints, e.pending_mints))
      = some (some (5, 0 + 3, 9, 0)))
    ∧ (((TransactionUpdater.save emptyCache envRuneFix false none none 0 0 8 tscMint).toOption.map
        fun c => (c.get_rune envRuneFix ridFix).toOption.map
          fun e => (e.burned, e.pending_burns, e.mints, e.pending_mints))
      = some (some (5, 0, 9 + 1, 0)))
    ∧ (((TransactionUpdater.save emptyCache envRuneFix true none none 0 0 8 tscMint).toOption.map
        fun c => (c.get_rune envRuneFix ridFix).toOption.map
          fun e => (e.burned, e.pending_burns, e.mints, e.pending_mints))
      = some (some (5, 0, 9, 0 + 1))) := by
  refine ⟨⟨by decide, by decide⟩, by decide, by decide, by decide⟩

/-! ### C6 — TCP handshake preamble cap -/

theorem trim_ping : trimChars PING = PING := by decide

/-- A run of k PING preamble lines with p + k ≤ 9: every PING is answered
PONG and reading continues with preamble count p + k. -/
theorem handshake_ping_run (parse : List Char → Option TcpSubscriptionRequest) :
    ∀ (k p : Nat) (rest : List (List Char)), p + k ≤ 9 →
      read_handshake_request parse (List.replicate k PING ++ rest) p
        = (List.replicate k PONG ++ (read_handshake_request parse rest (p + k)).1,
            (read_handshake_request parse rest (p + k)).2) := by
  intro k
  induction k with
  | zero => intro p rest _; simp
  | succ k ih =>
    intro p rest hp
    have h10 : ¬ (p + 1 ≥ MAX_PREAMBLE_LINES) := by
      simp only [MAX_PREAMBLE_LINES]; omega
    rw [List.replicate_succ, List.cons_append]
    rw [read_handshake_request]
    simp only [trim_ping]
    rw [if_neg (by decide : ¬ (PING.isEmpty = true))]
    simp only [if_true]
    rw [if_neg h10]
    rw [ih (p + 1) rest (by omega)]
    have hpk : p + 1 + k = p + (k + 1) := by omega
    rw [hpk, List.replicate_succ, List.cons_append]

/-- A run of k PING preamble lines that reaches the cap (p + k = 10):
each of the k PINGs is still answered PONG, then the handshake errors
without reading anything further. -/
theorem handshake_ping_overflow (parse : List Char → Option TcpSubscriptionRequest) :
    ∀ (k p : Nat) (rest : List (List Char)), p + k = 10 → 1 ≤ k →
      read_handshake_request parse (List.replicate k PING ++ rest) p
        = (List.replicate k PONG, .errTooManyPreamble) := by
  intro k
  induction k with
  | zero => intro p rest _ hk; omega
  | succ k ih =>
    intro p rest hp _
    rw [List.replicate_succ, List.cons_append]
    rw [read_handshake_request]
    simp only [trim_ping]
    rw [if_neg (by decide : ¬ (PING.isEmpty = true))]
    simp only [if_true]
    by_cases hk0 : k = 0
    · subst hk0
      rw [if_pos (by simp only [MAX_PREAMBLE_LINES]; omega)]
      simp
    · rw [if_neg (by simp only [MAX_PREAMBLE_LINES]; omega)]
      rw [ih (p + 1) rest (by omega) (by omega)]
      rw [List.replicate_succ]

def jsonLine : List Char := ['\x7b', 'j', '\x7d']

def parseFix : List Char → Option TcpSubscriptionRequest := fun s =>
  if s = jsonLine then some { subscribe := [EventType.newBlock] } else none

/-- C6 counterexample: a handshake of 10 preamble PING lines followed by a
valid JSON subscribe line fails — each of the 10 PINGs is answered PONG
but the handshake errors after the 10th preamble line without reading
the JSON, whereas the claim predicts acceptance (failure only from an
11th preamble line).  The same JSON line alone is accepted. -/
theorem C6_counterexample :
    read_handshake_request parseFix (List.replicate 10 PING ++ [jsonLine]) 0
      = (List.replicate 10 PONG, .errTooManyPreamble)
    ∧ read_handshake_request parseFix [jsonLine] 0
      = ([], .ok { subscribe := [EventType.newBlock] }) :=
  ⟨by decide, by decide⟩

/-- C6 (amended): a handshake of at most 9 preamble PING lines followed by
one valid JSON subscribe line succeeds, each PING answered PONG; already
a 10th preamble PING makes the handshake fail (it is still answered PONG
before the error). -/
theorem C6_handshake_amended (parse : List Char → Option TcpSubscriptionRequest)
    (line : List Char) (req : TcpSubscriptionRequest) (n : Nat)
    (hn : n ≤ 9)
    (hhead : (trimChars line).head? = some '\x7b')
    (hparse : parse (trimChars line) = some req) :
    read_handshake_request parse (List.replicate n PING ++ [line]) 0
      = (List.replicate n PONG, .ok req)
    ∧ ∀ rest, read_handshake_request parse (List.replicate 10 PING ++ rest) 0
        = (List.replicate 10 PONG, .errTooManyPreamble) := by
  constructor
  · rw [handshake_ping_run parse n 0 [line] (by omega)]
    have hnonempty : ¬ ((trimChars line).isEmpty = true) := by
      cases h : trimChars line with
      | nil => rw [h] at hhead; simp at hhead
      | cons a l => simp
    have hnp : ¬ (trimChars line = PING) := by
      intro h
      rw [h] at hhead
      simp [PING] at hhead
    have hone : read_handshake_request parse [line] (0 + n) = ([], .ok req) := by
      rw [read_handshake_request]
      rw [if_neg hnonempty, if_neg hnp, if_pos hhead, hparse]
    rw [hone]
    simp
  · intro rest
    exact handshake_ping_overflow parse 10 0 rest rfl (by omega)

/-- C6 witness: two PINGs then a concrete JSON line succeed with two PONGs;
ten PINGs fail with ten PONGs. -/
theorem C6_handshake_witness :
    read_handshake_request parseFix (List.replicate 2 PING ++ [jsonLine]) 0
      = (List.replicate 2 PONG, .ok { subscribe := [EventType.newBlock] })
    ∧ ∀ rest, read_handshake_request parseFix (List.replicate 10 PING ++ rest) 0
        = (List.replicate 10 PONG, .errTooManyPreamble) :=
  C6_handshake_amended parseFix jsonLine { subscribe := [EventType.newBlock] } 2
    (by decide) (by decide) (by decide)

/-! ### C8 — event broadcast: delivery and eviction -/

/-- C8: for every registered subscriber (ids unique, as keys of the
subscription map): the event is delivered to it iff its subscribed
event-type set contains the event's type and its channel accepts the
non-blocking try_send; it is evicted (absent from the remaining
subscriptions) iff it is subscribed to the type and its channel is full
or closed; a subscriber not subscribed to the type receives nothing and
remains registered. -/
theorem C8_broadcast (subs : List TcpSubscription) (event : Event)
    (sub : TcpSubscription) (hmem : sub ∈ subs)
    (hnodup : (subs.map fun s => s.id).Nodup) :
    (sub.id ∈ (broadcast subs event).1
        ↔ event.etype ∈ sub.event_types ∧ sub.channel = .ok)
    ∧ (sub ∈ (broadcast subs event).2
        ↔ ¬ (event.etype ∈ sub.event_types ∧ sub.channel ≠ .ok)) := by
  classical
  have inj : ∀ x ∈ subs, ∀ y ∈ subs, x.id = y.id → x = y :=
    List.inj_on_of_nodup_map hnodup
  have hfail : ∀ i : Nat,
      (i ∈ (subs.filter fun s =>
          decide (event.etype ∈ s.event_types) && decide (s.channel ≠ .ok)).map
            (fun s => s.id))
        ↔ ∃ s ∈ subs, s.id = i ∧ event.etype ∈ s.event_types ∧ s.channel ≠ .ok := by
    intro i
    simp only [List.mem_map, List.mem_filter, Bool.and_eq_true, decide_eq_true_eq]
    constructor
    · rintro ⟨s, ⟨hs, h1, h2⟩, hid⟩
      exact ⟨s, hs, hid, h1, h2⟩
    · rintro ⟨s, hs, hid, h1, h2⟩
      exact ⟨s, ⟨hs, h1, h2⟩, hid⟩
  constructor
  · simp only [broadcast, List.mem_map, List.mem_filter, Bool.and_eq_true,
      decide_eq_true_eq]
    constructor
    · rintro ⟨s, ⟨hs, h1, h2⟩, hid⟩
      have hss : s = sub := inj s hs sub hmem hid
      subst hss
      exact ⟨h1, h2⟩
    · rintro ⟨h1, h2⟩
      exact ⟨sub, ⟨hmem, h1, h2⟩, rfl⟩
  · simp only [broadcast, List.mem_filter, decide_eq_true_eq]
    constructor
    · rintro ⟨_, hnotin⟩ ⟨h1, h2⟩
      exact hnotin ((hfail sub.id).2 ⟨sub, hmem, rfl, h1, h2⟩)
    · intro hno
      refine ⟨hmem, fun hin => ?_⟩
      obtain ⟨s, hs, hid, h1, h2⟩ := (hfail sub.id).1 hin
      have hss : s = sub := inj s hs sub hmem hid
      subst hss
      exact hno ⟨h1, h2⟩

def subA : TcpSubscription := { id := 1, event_types := [.newBlock, .reorg], channel := .ok }

def subB : TcpSubscription := { id := 2, event_types := [.newBlock], channel := .full }

def subC : TcpSubscription := { id := 3, event_types := [.reorg], channel := .closed }

def evFix : Event := { etype := .newBlock, payload := 0 }

/-- C8 witness: in a concrete manager, the full-channel subscriber that is
subscribed to the event's type is not delivered to and is evicted. -/
theorem C8_broadcast_witness :
    (subB.id ∈ (broadcast [subA, subB, subC] evFix).1
        ↔ evFix.etype ∈ subB.event_types ∧ subB.channel = .ok)
    ∧ (subB ∈ (broadcast [subA, subB, subC] evFix).2
        ↔ ¬ (evFix.etype ∈ subB.event_types ∧ subB.channel ≠ .ok)) :=
  C8_broadcast [subA, subB, subC] evFix subB (by decide) (by decide)

/-! ### C7 — RuneId byte encoding vs numeric order -/

theorem leBytes_length (w n : Nat) : (leBytes w n).length = w := by
  induction w generalizing n with
  | zero => rfl
  | succ w ih => simp [leBytes, ih]

theorem leBytes_inj (w : Nat) :
    ∀ a b : Nat, a < 256 ^ w → b < 256 ^ w → leBytes w a = leBytes w b → a = b := by
  induction w with
  | zero =>
    intro a b ha hb _
    simp only [pow_zero, Nat.lt_one_iff] at ha hb
    omega
  | succ w ih =>
    intro a b ha hb h
    simp only [leBytes, List.cons.injEq] at h
    have hda : a / 256 < 256 ^ w := by
      rw [Nat.div_lt_iff_lt_mul (by norm_num)]
      calc a < 256 ^ (w + 1) := ha
        _ = 256 ^ w * 256 := by rw [pow_succ]
    have hdb : b / 256 < 256 ^ w := by
      rw [Nat.div_lt_iff_lt_mul (by norm_num)]
      calc b < 256 ^ (w + 1) := hb
        _ = 256 ^ w * 256 := by rw [pow_succ]
    have hdiv := ih (a / 256) (b / 256) hda hdb h.2
    have hmoda := Nat.div_add_mod a 256
    have hmodb := Nat.div_add_mod b 256
    omega

theorem bytesLe_antisymm : ∀ x y : List Nat,
    bytesLe x y = true → bytesLe y x = true → x = y
  | [], [], _, _ => rfl
  | [], _ :: _, _, h2 => by simp [bytesLe] at h2
  | _ :: _, [], h1, _ => by simp [bytesLe] at h1
  | a :: as, b :: bs, h1, h2 => by
    simp only [bytesLe, Bool.or_eq_true, Bool.and_eq_true, decide_eq_true_eq] at h1 h2
    rcases h1 with h1 | ⟨hab, h1⟩
    · rcases h2 with h2 | ⟨hba, _⟩
      · omega
      · omega
    · rcases h2 with h2 | ⟨_, h2⟩
      · omega
      · rw [hab, bytesLe_antisymm as bs h1 h2]

theorem bytesLe_total : ∀ x y : List Nat, bytesLe x y = true ∨ bytesLe y x = true
  | [], [] => .inl rfl
  | [], _ :: _ => .inl rfl
  | _ :: _, [] => .inr rfl
  | a :: as, b :: bs => by
    rcases Nat.lt_trichotomy a b with h | h | h
    · left; simp [bytesLe, h]
    · rcases bytesLe_total as bs with ih | ih
      · left; simp [bytesLe, h, ih]
      · right; simp [bytesLe, h.symm, ih]
    · right; simp [bytesLe, h]

/-- C7 counterexample: for a = 256:0 and b = 1:0 the little-endian
encoding of a compares lexicographically below that of b although
(a.block, a.tx) > (b.block, b.tx) numerically — so encoded order does
not match numeric order, and get_sorted_rune_ids returns the pair sorted
by byte order (a's encoding first), not numeric order. -/
theorem C7_counterexample :
    bytesLe (RuneId.mk 256 0).to_bytes (RuneId.mk 1 0).to_bytes = true
    ∧ ¬ RuneId.numLe (RuneId.mk 256 0) (RuneId.mk 1 0)
    ∧ (RuneId.get_sorted_rune_ids (RuneId.mk 1 0) (RuneId.mk 256 0)).1
        = (RuneId.mk 256 0).to_bytes := by
  refine ⟨by decide, by decide, by decide⟩

/-- C7 (amended): lexicographic comparison of the 12-byte little-endian
encodings does not in general agree with numeric order on (block, tx);
it agrees exactly on equality — the encodings are equal iff the RuneIds
are — and get_sorted_rune_ids returns the two encodings sorted by
lexicographic byte order, yielding the same pair regardless of argument
order. -/
theorem C7_sorted_rune_ids_amended (a b : RuneId)
    (ha : a.block < 2 ^ 64) (hb : b.block < 2 ^ 64)
    (ha2 : a.tx < 2 ^ 32) (hb2 : b.tx < 2 ^ 32) :
    bytesLe (RuneId.get_sorted_rune_ids a b).1 (RuneId.get_sorted_rune_ids a b).2 = true
    ∧ RuneId.get_sorted_rune_ids a b = RuneId.get_sorted_rune_ids b a
    ∧ (a.to_bytes = b.to_bytes ↔ a = b) := by
  have hpow64 : (256 : Nat) ^ 8 = 2 ^ 64 := by norm_num
  have hpow32 : (256 : Nat) ^ 4 = 2 ^ 32 := by norm_num
  have hinj : a.to_bytes = b.to_bytes ↔ a = b := by
    constructor
    · intro h
      unfold RuneId.to_bytes at h
      have hlen : (leBytes 8 a.block).length = (leBytes 8 b.block).length := by
        rw [leBytes_length, leBytes_length]
      obtain ⟨h1, h2⟩ := List.append_inj h hlen
      have hblock := leBytes_inj 8 a.block b.block
        (by rw [hpow64]; exact ha) (by rw [hpow64]; exact hb) h1
      have htx := leBytes_inj 4 a.tx b.tx
        (by rw [hpow32]; exact ha2) (by rw [hpow32]; exact hb2) h2
      cases a; cases b
      simp_all
    · intro h; rw [h]
  refine ⟨?_, ?_, hinj⟩
  · by_cases h1 : bytesLe a.to_bytes b.to_bytes = true
    · simp [RuneId.get_sorted_rune_ids, h1]
    · have h1f : bytesLe a.to_bytes b.to_bytes = false := by simpa using h1
      have h2 : bytesLe b.to_bytes a.to_bytes = true := by
        rcases bytesLe_total a.to_bytes b.to_bytes with h | h
        · exact absurd h h1
        · exact h
      simp [RuneId.get_sorted_rune_ids, h1f, h2]
  · by_cases h1 : bytesLe a.to_bytes b.to_bytes = true
    · by_cases h2 : bytesLe b.to_bytes a.to_bytes = true
      · have heq := bytesLe_antisymm _ _ h1 h2
        simp [RuneId.get_sorted_rune_ids, h1, h2, heq]
      · have h2f : bytesLe b.to_bytes a.to_bytes = false := by simpa using h2
        simp [RuneId.get_sorted_rune_ids, h1, h2f]
    · have h1f : bytesLe a.to_bytes b.to_bytes = false := by simpa using h1
      have h2 : bytesLe b.to_bytes a.to_bytes = true := by
        rcases bytesLe_total a.to_bytes b.to_bytes with h | h
        · exact absurd h h1
        · exact h
      simp [RuneId.get_sorted_rune_ids, h1f, h2]

/-- C7 witness: the amended statement at the concrete pair 1:0 and 256:0
(in-range block and tx values). -/
theorem C7_sorted_rune_ids_witness :
    bytesLe (RuneId.get_sorted_rune_ids (RuneId.mk 1 0) (RuneId.mk 256 0)).1
        (RuneId.get_sorted_rune_ids (RuneId.mk 1 0) (RuneId.mk 256 0)).2 = true
    ∧ RuneId.get_sorted_rune_ids (RuneId.mk 1 0) (RuneId.mk 256 0)
        = RuneId.get_sorted_rune_ids (RuneId.mk 256 0) (RuneId.mk 1 0)
    ∧ ((RuneId.mk 1 0).to_bytes = (RuneId.mk 256 0).to_bytes
        ↔ RuneId.mk 1 0 = RuneId.mk 256 0) :=
  C7_sorted_rune_ids_amended (RuneId.mk 1 0) (RuneId.mk 256 0)
    (by decide) (by decide) (by decide) (by decide)

/-! ### C2 — reorg depth bound of detect_reorg -/

theorem detect_reorg_loop_all_disagree (env : ReorgEnv) (height : Nat) :
    ∀ (len start : Nat),
      (∀ e, start ≤ e → e < start + len →
        ∃ se re, env.store_block_hash (height - e) = .ok se ∧
          env.rpc_block_hash (height - e) = .ok re ∧ se ≠ re) →
      detect_reorg_loop env height (List.range' start len) = .unrecoverable := by
  intro len
  induction len with
  | zero => intro start _; rfl
  | succ len ih =>
    intro start hdis
    rw [show List.range' start (len + 1) = start :: List.range' (start + 1) len from rfl]
    obtain ⟨se, re, hs, hr, hne⟩ := hdis start (le_refl _) (by omega)
    simp only [detect_reorg_loop, hs, hr]
    rw [if_neg hne]
    exact ih (start + 1) (fun e h1 h2 => hdis e (by omega) (by omega))

theorem detect_reorg_loop_first_agree (env : ReorgEnv) (height : Nat) :
    ∀ (len start d : Nat), start ≤ d → d < start + len →
      (∀ e, start ≤ e → e < d →
        ∃ se re, env.store_block_hash (height - e) = .ok se ∧
          env.rpc_block_hash (height - e) = .ok re ∧ se ≠ re) →
      (∃ hsh, env.store_block_hash (height - d) = .ok hsh ∧
        env.rpc_block_hash (height - d) = .ok hsh) →
      detect_reorg_loop env height (List.range' start len) = .recoverable height d := by
  intro len
  induction len with
  | zero => intro start d h1 h2 _ _; omega
  | succ len ih =>
    intro start d h1 h2 hdis hagr
    rw [show List.range' start (len + 1) = start :: List.range' (start + 1) len from rfl]
    by_cases hsd : start = d
    · subst hsd
      obtain ⟨hsh, hs, hr⟩ := hagr
      simp only [detect_reorg_loop, hs, hr]
      simp
    · obtain ⟨se, re, hs, hr, hne⟩ := hdis start (le_refl _) (by omega)
      simp only [detect_reorg_loop, hs, hr]
      rw [if_neg hne]
      exact ih (start + 1) d (by omega) (by omega)
        (fun e he1 he2 => hdis e (by omega) he2) hagr

def envReorgFix : ReorgEnv :=
  { store_block_hash := fun h =>
      if h = 9 then .ok 111 else if h = 8 then .ok 100 else .error (.notFound "hash"),
    rpc_block_hash := fun h =>
      if h = 9 then .ok 999 else if h = 8 then .ok 100 else .error () }

/-- C2 counterexample: stored and node hashes first agree at depth exactly
max_recoverable_reorg_depth (= 2, at height 8 below the mismatching
block at height 10), yet detect_reorg returns Unrecoverable — the walk
only tries depths 1 .. max−1 — whereas the claim predicts
Recoverable{height 10, depth 2}. -/
theorem C2_counterexample :
    detect_reorg envReorgFix 222 10 2 = .unrecoverable
    ∧ envReorgFix.store_block_hash 8 = .ok 100
    ∧ envReorgFix.rpc_block_hash 8 = .ok 100
    ∧ envReorgFix.store_block_hash 9 = .ok 111
    ∧ envReorgFix.rpc_block_hash 9 = .ok 999
    ∧ (111 : Nat) ≠ 222 := by
  refine ⟨by decide, by decide, by decide, by decide, by decide, by decide⟩

/-- C2 (amended): on a previous-hash mismatch, detect_reorg walks depths
1 .. max_recoverable_reorg_depth − 1 only: if the stored and node hashes
first agree at depth d with 1 ≤ d ≤ max − 1 (all reads up to there
succeeding and disagreeing), it returns Recoverable{height, d}; if every
depth in 1 .. max − 1 disagrees, it returns Unrecoverable — so a reorg
whose fork point lies exactly max blocks below the mismatching block is
already an unrecoverable halt. -/
theorem C2_detect_reorg_amended (env : ReorgEnv) (prev ph maxd h0 : Nat)
    (hprev : env.store_block_hash ph = .ok h0) (hne : h0 ≠ prev) :
    (∀ d, 1 ≤ d → d < maxd →
      (∀ e, 1 ≤ e → e < d →
        ∃ se re, env.store_block_hash (ph + 1 - e) = .ok se ∧
          env.rpc_block_hash (ph + 1 - e) = .ok re ∧ se ≠ re) →
      (∃ hsh, env.store_block_hash (ph + 1 - d) = .ok hsh ∧
        env.rpc_block_hash (ph + 1 - d) = .ok hsh) →
      detect_reorg env prev (ph + 1) maxd = .recoverable (ph + 1) d)
    ∧ ((∀ e, 1 ≤ e → e < maxd →
        ∃ se re, env.store_block_hash (ph + 1 - e) = .ok se ∧
          env.rpc_block_hash (ph + 1 - e) = .ok re ∧ se ≠ re) →
      detect_reorg env prev (ph + 1) maxd = .unrecoverable) := by
  have hunfold : detect_reorg env prev (ph + 1) maxd
      = detect_reorg_loop env (ph + 1) (List.range' 1 (maxd - 1)) := by
    simp only [detect_reorg, hprev]
    rw [if_neg hne]
  constructor
  · intro d hd1 hd2 hdis hagr
    rw [hunfold]
    exact detect_reorg_loop_first_agree env (ph + 1) (maxd - 1) 1 d hd1 (by omega)
      hdis hagr
  · intro hdis
    rw [hunfold]
    exact detect_reorg_loop_all_disagree env (ph + 1) (maxd - 1) 1
      (fun e he1 he2 => hdis e he1 (by omega))

/-- C2 witness: with max depth 3 and first agreement at depth 2, the same
environment yields Recoverable{10, 2}. -/
theorem C2_detect_reorg_witness :
    detect_reorg envReorgFix 222 10 3 = .recoverable 10 2 :=
  (C2_detect_reorg_amended envReorgFix 222 9 3 111 (by decide) (by decide)).1 2
    (by decide) (by decide)
    (fun e he1 he2 => by
      have he : e = 1 := by omega
      subst he
      exact ⟨111, 999, by decide, by decide, by decide⟩)
    ⟨100, by decide, by decide⟩

/-! ### C3 — purge window of prepare_to_delete -/

theorem stage_input_deletes_spec (a : UpdaterCache) (iso : Bool) (txin : OutPoint) :
    a.stage_input_deletes iso txin
      = { a with delete := { a.delete with
          tx_outs := if iso then a.delete.tx_outs else insert txin a.delete.tx_outs,
          script_pubkeys_outpoints := insert txin a.delete.script_pubkeys_outpoints } } := by
  cases iso <;> rfl

theorem stage_inputs_foldl (iso : Bool) :
    ∀ (l : List OutPoint) (a : UpdaterCache),
      l.foldl (fun acc txin => acc.stage_input_deletes iso txin) a
        = { a with delete := { a.delete with
            tx_outs := if iso then a.delete.tx_outs else a.delete.tx_outs ∪ l.toFinset,
            script_pubkeys_outpoints :=
              a.delete.script_pubkeys_outpoints ∪ l.toFinset } } := by
  intro l
  induction l with
  | nil => intro a; simp
  | cons x xs ih =>
    intro a
    simp only [List.foldl_cons]
    rw [ih, stage_input_deletes_spec]
    cases iso <;>
      simp [List.toFinset_cons, Finset.union_insert, Finset.insert_union]

theorem stage_tx_deletes_spec (a : UpdaterCache) (env : StoreEnv) (iso : Bool)
    (txid : Nat) (tsc : TransactionStateChange)
    (hT : a.get_tx_state_change_one env txid = .ok tsc) :
    a.stage_tx_deletes env iso txid
      = .ok { a with delete := { a.delete with
          tx_outs := if iso then a.delete.tx_outs
            else a.delete.tx_outs ∪ tsc.inputs.toFinset,
          script_pubkeys_outpoints :=
            a.delete.script_pubkeys_outpoints ∪ tsc.inputs.toFinset,
          tx_state_changes := insert txid a.delete.tx_state_changes } } := by
  unfold UpdaterCache.stage_tx_deletes
  rw [hT]
  simp only [stage_inputs_foldl]

theorem get_tsc_one_congr (a c : UpdaterCache) (env : StoreEnv) (t : Nat)
    (hupd : a.update.tx_state_changes = c.update.tx_state_changes) :
    a.get_tx_state_change_one env t = c.get_tx_state_change_one env t := by
  unfold UpdaterCache.get_tx_state_change_one
  rw [hupd]

theorem get_block_by_height_congr (a c : UpdaterCache) (env : StoreEnv) (h : Nat)
    (hbl : a.update.blocks = c.update.blocks)
    (hbh : a.update.block_hashes = c.update.block_hashes) :
    a.get_block_by_height env h = c.get_block_by_height env h := by
  unfold UpdaterCache.get_block_by_height UpdaterCache.get_block
  rw [hbl, hbh]

theorem stage_txids_spec (env : StoreEnv) (iso : Bool) (c : UpdaterCache)
    (T : Nat → TransactionStateChange) :
    ∀ (txids : List Nat) (a : UpdaterCache),
      a.update.tx_state_changes = c.update.tx_state_changes →
      (∀ t ∈ txids, c.get_tx_state_change_one env t = .ok (T t)) →
      UpdaterCache.stage_txids env iso txids a
        = .ok { a with delete := { a.delete with
            tx_outs := if iso then a.delete.tx_outs
              else a.delete.tx_outs ∪ (txids.flatMap fun t => (T t).inputs).toFinset,
            script_pubkeys_outpoints := a.delete.script_pubkeys_outpoints
              ∪ (txids.flatMap fun t => (T t).inputs).toFinset,
            tx_state_changes := a.delete.tx_state_changes ∪ txids.toFinset } } := by
  intro txids
  induction txids with
  | nil => intro a _ _; simp [UpdaterCache.stage_txids]
  | cons t ts ih =>
    intro a hupd hT
    rw [UpdaterCache.stage_txids]
    have h1 : a.get_tx_state_change_one env t = .ok (T t) := by
      rw [get_tsc_one_congr a c env t hupd]; exact hT t (by simp)
    rw [stage_tx_deletes_spec a env iso t (T t) h1]
    refine Eq.trans (ih _ hupd (fun u hu => hT u (by simp [hu]))) ?_
    cases iso <;>
      simp [List.flatMap_cons, List.toFinset_append, List.toFinset_cons,
        Finset.union_insert, Finset.insert_union, Finset.union_assoc]

/-- All txids of the blocks at the given heights. -/
def heightTxids (B : Nat → Block) (hs : List Nat) : List Nat :=
  hs.flatMap fun h => (B h).tx_ids

/-- All consumed outpoints of the state changes of those txids. -/
def heightInputs (B : Nat → Block) (T : Nat → TransactionStateChange)
    (hs : List Nat) : List OutPoint :=
  (heightTxids B hs).flatMap fun t => (T t).inputs

theorem purge_block_spec (env : StoreEnv) (iso : Bool) (c : UpdaterCache)
    (B : Nat → Block) (T : Nat → TransactionStateChange) (height : Nat)
    (a : UpdaterCache)
    (hbl : a.update.blocks = c.update.blocks)
    (hbh : a.update.block_hashes = c.update.block_hashes)
    (htsc : a.update.tx_state_changes = c.update.tx_state_changes)
    (hB : c.get_block_by_height env height = .ok (B height))
    (hT : ∀ t ∈ (B height).tx_ids,
      c.get_tx_state_change_one env t = .ok (T t)) :
    a.purge_block env height iso
      = .ok { a with
          update := { a.update with purged_blocks_count := height },
          delete := { a.delete with
            tx_outs := if iso then a.delete.tx_outs
              else a.delete.tx_outs ∪ (heightInputs B T [height]).toFinset,
            script_pubkeys_outpoints := a.delete.script_pubkeys_outpoints
              ∪ (heightInputs B T [height]).toFinset,
            tx_state_changes :=
              a.delete.tx_state_changes ∪ (heightTxids B [height]).toFinset } } := by
  unfold UpdaterCache.purge_block
  rw [get_block_by_height_congr a c env height hbl hbh, hB]
  simp only [stage_txids_spec env iso c T (B height).tx_ids a htsc hT]
  cases iso <;>
    simp [heightTxids, heightInputs, List.flatMap_cons]

theorem purge_range_spec (env : StoreEnv) (iso : Bool) (c : UpdaterCache)
    (B : Nat → Block) (T : Nat → TransactionStateChange) :
    ∀ (hs : List Nat) (a : UpdaterCache),
      a.update.blocks = c.update.blocks →
      a.update.block_hashes = c.update.block_hashes →
      a.update.tx_state_changes = c.update.tx_state_changes →
      (∀ h ∈ hs, c.get_block_by_height env h = .ok (B h)) →
      (∀ h ∈ hs, ∀ t ∈ (B h).tx_ids,
        c.get_tx_state_change_one env t = .ok (T t)) →
      UpdaterCache.purge_range env iso hs a
        = .ok { a with
            update := { a.update with
              purged_blocks_count :=
                hs.foldl (fun _ h => h) a.update.purged_blocks_count },
            delete := { a.delete with
              tx_outs := if iso then a.delete.tx_outs
                else a.delete.tx_outs ∪ (heightInputs B T hs).toFinset,
              script_pubkeys_outpoints := a.delete.script_pubkeys_outpoints
                ∪ (heightInputs B T hs).toFinset,
              tx_state_changes :=
                a.delete.tx_state_changes ∪ (heightTxids B hs).toFinset } } := by
  intro hs
  induction hs with
  | nil =>
    intro a _ _ _ _ _
    simp [UpdaterCache.purge_range, heightTxids, heightInputs]
  | cons h hs ih =>
    intro a hbl hbh htsc hB hT
    rw [UpdaterCache.purge_range]
    rw [purge_block_spec env iso c B T h a hbl hbh htsc (hB h (by simp))
      (hT h (by simp))]
    refine Eq.trans (ih _ hbl hbh htsc (fun u hu => hB u (by simp [hu]))
      (fun u hu => hT u (by simp [hu]))) ?_
    cases iso <;>
      simp [heightTxids, heightInputs, List.flatMap_cons, List.flatMap_append,
        List.toFinset_append, Finset.union_assoc]

theorem range_foldl_last :
    ∀ (n s p : Nat), (List.range' s (n + 1)).foldl (fun _ h => h) p = s + n := by
  intro n
  induction n with
  | zero => intro s p; rfl
  | succ n ih =>
    intro s p
    rw [show List.range' s (n + 1 + 1) = s :: List.range' (s + 1) (n + 1) from rfl]
    rw [List.foldl_cons]
    rw [ih (s + 1) s]
    omega

/-- First height of the purge range computed by prepare_to_delete. -/
def purge_from (c : UpdaterCache) (maxd : Nat) : Nat :=
  max (c.first_block_height - (maxd + 1)) (c.update.purged_blocks_count + 1)

/-- The half-open purge range [purge_from, last − maxd) as a list. -/
def purge_window (c : UpdaterCache) (maxd last : Nat) : List Nat :=
  List.range' (purge_from c maxd) ((last - maxd) - purge_from c maxd)

/-- C3: for a flush window with at least one staged block
(last_block_height = some last) whose lookups resolve (blocks B, state
changes T), prepare_to_delete purges exactly the heights in the
half-open range [max(purged_blocks_count + 1, first_block_of_window −
max_recoverable_reorg_depth − 1), last − max_recoverable_reorg_depth):
it stages, for every txid of each purged height's block, deletion of the
tx state-change always, of the tx's consumed outpoints iff
index_spent_outputs is false, and of the reverse script-pubkey entries
for those outpoints always, and leaves the purged-blocks watermark at
the last purged height (last − max − 1 when the range is non-empty); a
window tip below the purge depth stages nothing. -/
theorem C3_prepare_to_delete (env : StoreEnv) (c : UpdaterCache)
    (B : Nat → Block) (T : Nat → TransactionStateChange)
    (last maxd : Nat) (iso : Bool)
    (hlast : c.last_block_height = some last)
    (hB : ∀ h : Nat, c.get_block_by_height env h = .ok (B h))
    (hT : ∀ t : Nat, c.get_tx_state_change_one env t = .ok (T t)) :
    (maxd ≤ last →
      c.prepare_to_delete env maxd iso
        = .ok { c with
            update := { c.update with
              purged_blocks_count :=
                (purge_window c maxd last).foldl (fun _ h => h)
                  c.update.purged_blocks_count },
            delete := { c.delete with
              tx_outs := if iso then c.delete.tx_outs
                else c.delete.tx_outs
                  ∪ (heightInputs B T (purge_window c maxd last)).toFinset,
              script_pubkeys_outpoints := c.delete.script_pubkeys_outpoints
                ∪ (heightInputs B T (purge_window c maxd last)).toFinset,
              tx_state_changes := c.delete.tx_state_changes
                ∪ (heightTxids B (purge_window c maxd last)).toFinset } })
    ∧ (¬ maxd ≤ last → c.prepare_to_delete env maxd iso = .ok c)
    ∧ (∀ n : Nat, (last - maxd) - purge_from c maxd = n + 1 →
        (purge_window c maxd last).foldl (fun _ h => h)
            c.update.purged_blocks_count
          = (last - maxd) - 1) := by
  unfold UpdaterCache.prepare_to_delete
  rw [hlast]
  simp only []
  refine ⟨?_, ?_, ?_⟩
  · intro hle
    rw [if_pos hle]
    have hpr := purge_range_spec env iso c B T (purge_window c maxd last) c rfl rfl rfl
      (fun h _ => hB h) (fun h _ t _ => hT t)
    rw [hlast] at hpr
    exact hpr
  · intro hgt
    rw [if_neg hgt]
  · intro n hn
    unfold purge_window
    rw [hn, range_foldl_last]
    omega

def blockFix (h : Nat) : Block :=
  { height := h, header_hash := h, tx_ids := [h * 10], etched_runes := [] }

def tscFix (t : Nat) : TransactionStateChange :=
  { inputs := [{ txid := t, vout := 0 }], outputs := [], etched := none,
    minted := none, burned := [] }

def envPurgeFix : StoreEnv :=
  { get_block_hash := fun h => .ok h,
    get_block_by_hash := fun hsh => .ok (blockFix hsh),
    get_tx_out := fun _ => .error (.notFound "outpoint"),
    get_tx_state_changes := fun t => .ok (tscFix t),
    get_rune := fun _ => .error (.notFound "rune") }

def cachePurgeFix : UpdaterCache :=
  { emptyCache with
    first_block_height := 10,
    last_block_height := some 14,
    update := { emptyBatchUpdate with block_count := 15, purged_blocks_count := 3 } }

/-- C3 witness: a concrete window (first height 10, last staged block 14,
reorg depth 2, previous watermark 3) purges exactly heights 7, 8, 9, 10,
11 and moves the watermark to 11 = (14 − 2) − 1. -/
theorem C3_prepare_to_delete_witness :
    cachePurgeFix.prepare_to_delete envPurgeFix 2 false
      = .ok { cachePurgeFix with
          update := { cachePurgeFix.update with
            purged_blocks_count :=
              (purge_window cachePurgeFix 2 14).foldl (fun _ h => h)
                cachePurgeFix.update.purged_blocks_count },
          delete := { cachePurgeFix.delete with
            tx_outs := cachePurgeFix.delete.tx_outs
              ∪ (heightInputs blockFix tscFix (purge_window cachePurgeFix 2 14)).toFinset,
            script_pubkeys_outpoints := cachePurgeFix.delete.script_pubkeys_outpoints
              ∪ (heightInputs blockFix tscFix (purge_window cachePurgeFix 2 14)).toFinset,
            tx_state_changes := cachePurgeFix.delete.tx_state_changes
              ∪ (heightTxids blockFix (purge_window cachePurgeFix 2 14)).toFinset } }
    ∧ purge_window cachePurgeFix 2 14 = [7, 8, 9, 10, 11]
    ∧ (purge_window cachePurgeFix 2 14).foldl (fun _ h => h)
        cachePurgeFix.update.purged_blocks_count = 11 :=
  ⟨(C3_prepare_to_delete envPurgeFix cachePurgeFix blockFix tscFix 14 2 false
      rfl (fun _ => rfl) (fun _ => rfl)).1 (by omega),
    by decide,
    (C3_prepare_to_delete envPurgeFix cachePurgeFix blockFix tscFix 14 2 false
      rfl (fun _ => rfl) (fun _ => rfl)).2.2 4 (by decide)⟩

/-! ### C10 — NotFound inputs are skipped by save -/

theorem get_tx_out_congr (a c : UpdaterCache) (env : StoreEnv) (o : OutPoint)
    (h : a.update.txouts = c.update.txouts) :
    a.get_tx_out env o = c.get_tx_out env o := by
  unfold UpdaterCache.get_tx_out
  rw [h]

theorem update_mints_txouts (c : UpdaterCache) (env : StoreEnv) (m : Bool)
    (rid : RuneId) (amt : Int) (c2 : UpdaterCache)
    (h : update_mints c env m rid amt = .ok c2) :
    c2.update.txouts = c.update.txouts := by
  unfold update_mints at h
  repeat' split at h
  all_goals
    first
      | (simp at h; done)
      | ((try simp only [Except.ok.injEq] at h); subst h; rfl)

theorem update_burn_balance_txouts (c : UpdaterCache) (env : StoreEnv) (m : Bool)
    (rid : RuneId) (amt : Int) (c2 : UpdaterCache)
    (h : update_burn_balance c env m rid amt = .ok c2) :
    c2.update.txouts = c.update.txouts := by
  unfold update_burn_balance at h
  repeat' split at h
  all_goals
    first
      | (simp at h; done)
      | ((try simp only [Except.ok.injEq] at h); subst h; rfl)

theorem apply_burns_txouts (env : StoreEnv) (m : Bool) :
    ∀ (l : List (RuneId × Nat)) (c c2 : UpdaterCache),
      apply_burns env m l c = .ok c2 → c2.update.txouts = c.update.txouts := by
  intro l
  induction l with
  | nil =>
    intro c c2 h
    simp only [apply_burns, Except.ok.injEq] at h
    subst h; rfl
  | cons p ps ih =>
    intro c c2 h
    rw [apply_burns] at h
    cases hb : burn_rune c env m p.1 p.2 with
    | error e => rw [hb] at h; simp at h
    | ok cm =>
      rw [hb] at h
      have h1 : cm.update.txouts = c.update.txouts :=
        update_burn_balance_txouts c env m p.1 (u128_as_i128 p.2) cm hb
      exact (ih cm c2 h).trans h1

theorem apply_mint_txouts (c : UpdaterCache) (env : StoreEnv) (m : Bool)
    (mo : Option RuneAmount) (c2 : UpdaterCache)
    (h : apply_mint c env m mo = .ok c2) :
    c2.update.txouts = c.update.txouts := by
  cases mo with
  | none =>
    simp only [apply_mint, Except.ok.injEq] at h
    subst h; rfl
  | some ma =>
    exact update_mints_txouts c env m ma.rune_id 1 c2 h

theorem create_rune_entry_txouts (c : UpdaterCache) (bt txid : Nat)
    (ins : Option (Nat × Nat)) (id : RuneId) (rune : Nat) (art : Artifact) :
    (create_rune_entry c bt txid ins id rune art).update.txouts
      = c.update.txouts := by
  unfold create_rune_entry
  cases ins with
  | none => cases art <;> rfl
  | some pr => cases pr; cases art <;> rfl

theorem apply_etched_txouts (c : UpdaterCache) (bt txid : Nat)
    (dec : Option Artifact) (ins : Option (Nat × Nat))
    (eo : Option (RuneId × Nat)) (c2 : UpdaterCache)
    (h : apply_etched c bt txid dec ins eo = .ok c2) :
    c2.update.txouts = c.update.txouts := by
  cases eo with
  | none =>
    simp only [apply_etched, Except.ok.injEq] at h
    subst h; rfl
  | some pr =>
    cases pr with
    | mk id rune =>
      cases dec with
      | none => simp [apply_etched] at h
      | some art =>
        simp only [apply_etched, Except.ok.injEq] at h
        subst h
        exact create_rune_entry_txouts c bt txid ins id rune art

theorem usi_notfound (c : UpdaterCache) (env : StoreEnv) (o : OutPoint) (msg : String)
    (hnf : c.get_tx_out env o = .error (.notFound msg)) :
    update_spendable_input c env o true = .ok c := by
  unfold update_spendable_input
  rw [hnf]

theorem usi_store_error (c : UpdaterCache) (env : StoreEnv) (o : OutPoint)
    (e : StoreError) (he : e.is_not_found = false)
    (hg : c.get_tx_out env o = .error e) :
    update_spendable_input c env o true = .error (.store e) := by
  unfold update_spendable_input
  rw [hg]
  cases e with
  | notFound m => simp [StoreError.is_not_found] at he
  | db => rfl
  | hexToArray => rfl
  | deserialize => rfl

theorem usi_preserves_notfound (c : UpdaterCache) (env : StoreEnv)
    (i o : OutPoint) (msg : String) (c2 : UpdaterCache)
    (hnf : c.get_tx_out env o = .error (.notFound msg))
    (hu : update_spendable_input c env i true = .ok c2) :
    c2.get_tx_out env o = .error (.notFound msg) := by
  unfold update_spendable_input at hu
  cases hg : c.get_tx_out env i with
  | ok t =>
    rw [hg] at hu
    simp only [Except.ok.injEq] at hu
    subst hu
    have hio : i ≠ o := by
      intro he
      rw [he, hnf] at hg
      exact absurd hg (by simp)
    unfold UpdaterCache.get_tx_out at hnf ⊢
    simp only [UpdaterCache.set_tx_out]
    rw [show lookupA o ((i, { t with spent := true }) :: c.update.txouts)
        = lookupA o c.update.txouts from by rw [lookupA, if_neg hio]]
    exact hnf
  | error e =>
    rw [hg] at hu
    cases e with
    | notFound m =>
      simp only [Except.ok.injEq] at hu
      subst hu
      exact hnf
    | db => simp at hu
    | hexToArray => simp at hu
    | deserialize => simp at hu

theorem spend_inputs_skip (env : StoreEnv) (o : OutPoint) (msg : String) :
    ∀ (l1 l2 : List OutPoint) (c : UpdaterCache),
      c.get_tx_out env o = .error (.notFound msg) →
      spend_inputs env (l1 ++ o :: l2) c = spend_inputs env (l1 ++ l2) c := by
  intro l1
  induction l1 with
  | nil =>
    intro l2 c hnf
    simp only [List.nil_append]
    rw [spend_inputs]
    rw [usi_notfound c env o msg hnf]
  | cons i l1 ih =>
    intro l2 c hnf
    simp only [List.cons_append]
    rw [spend_inputs]
    conv_rhs => rw [spend_inputs]
    cases hu : update_spendable_input c env i true with
    | error e => rfl
    | ok c2 =>
      exact ih l2 c2 (usi_preserves_notfound c env i o msg c2 hnf hu)

/-- The rune-transactions entries add_rune_txids prepends, as a function
of the previous map (used to show the loop only touches that map). -/
def addRuneTxsList (txid : Nat) :
    List RuneId → List (RuneId × List Nat) → List (RuneId × List Nat)
  | [], rts => rts
  | r :: rs, rts =>
    addRuneTxsList txid rs ((r, (lookupA r rts).getD [] ++ [txid]) :: rts)

theorem add_rune_txids_spec (txid : Nat) :
    ∀ (rids : List RuneId) (c : UpdaterCache),
      add_rune_txids txid rids c
        = { c with update := { c.update with
            rune_transactions :=
              addRuneTxsList txid rids c.update.rune_transactions } } := by
  intro rids
  induction rids with
  | nil => intro c; simp [add_rune_txids, addRuneTxsList]
  | cons r rs ih =>
    intro c
    rw [add_rune_txids, ih]
    simp [UpdaterCache.add_rune_transaction, addRuneTxsList]

/-- C10: if a consumed input's outpoint is absent from both the cache and
the store (the lookup returns NotFound), its spend-marking is silently
skipped with no error and no state change, and save behaves exactly as
if that input were not in the state change's input list — in particular
it still returns Ok whenever the rest succeeds, with all other effects
applied (the recorded state change is of course the original one); only
a store error other than NotFound makes the spend-marking step (and
hence save) return an error. -/
theorem C10_save_notfound_input (env : StoreEnv) (mempool : Bool)
    (decipher : Option Artifact) (inscription : Option (Nat × Nat))
    (block_time height txid : Nat) (c : UpdaterCache)
    (x : TransactionStateChange) (o : OutPoint) (l1 l2 : List OutPoint)
    (msg : String)
    (hinp : x.inputs = l1 ++ o :: l2)
    (hnf : c.get_tx_out env o = .error (.notFound msg)) :
    update_spendable_input c env o true = .ok c
    ∧ (∀ e : StoreError, e.is_not_found = false →
        ∀ c2 : UpdaterCache, c2.get_tx_out env o = .error e →
          update_spendable_input c2 env o true = .error (.store e))
    ∧ TransactionUpdater.save c env mempool decipher inscription
          block_time height txid x
        = Except.map
            (fun cf => { cf with update := { cf.update with
                tx_state_changes := (txid, x) :: cf.update.tx_state_changes.tail } })
            (TransactionUpdater.save c env mempool decipher inscription
              block_time height txid { x with inputs := l1 ++ l2 }) := by
  refine ⟨usi_notfound c env o msg hnf,
    fun e he c2 hg => usi_store_error c2 env o e he hg, ?_⟩
  unfold TransactionUpdater.save
  cases hb : apply_burns env mempool x.burned c with
  | error e => simp only [hb]; rfl
  | ok c1 =>
    simp only [hb]
    cases hm : apply_mint c1 env mempool x.minted with
    | error e => simp only [hm]; rfl
    | ok c2 =>
      simp only [hm]
      cases he2 : apply_etched c2 block_time txid decipher inscription x.etched with
      | error e => simp only [he2]; rfl
      | ok c3 =>
        simp only [he2]
        have htx : c3.update.txouts = c.update.txouts :=
          (apply_etched_txouts c2 block_time txid decipher inscription
              x.etched c3 he2).trans
            ((apply_mint_txouts c1 env mempool x.minted c2 hm).trans
              (apply_burns_txouts env mempool x.burned c c1 hb))
        have hnf3 : c3.get_tx_out env o = .error (.notFound msg) := by
          rw [get_tx_out_congr c3 c env o htx]; exact hnf
        rw [hinp]
        rw [spend_inputs_skip env o msg l1 l2 c3 hnf3]
        cases hs : spend_inputs env (l1 ++ l2) c3 with
        | error e => simp only [hs]; rfl
        | ok c4 =>
          simp only [hs]
          simp only [TransactionStateChange.rune_ids, add_rune_txids_spec]
          simp [UpdaterCache.set_tx_state_changes, Except.map, List.tail_cons]

def opFix : OutPoint := { txid := 5, vout := 0 }

def tscIn : TransactionStateChange :=
  { inputs := [opFix], outputs := [], etched := none, minted := none, burned := [] }

/-- C10 witness: a concrete save whose single consumed input is absent
from cache and store — the spend-marking is skipped without error and
save equals the save of the input-free state change (modulo the recorded
state change itself). -/
theorem C10_save_notfound_witness :
    update_spendable_input emptyCache envRuneFix opFix true = .ok emptyCache
    ∧ (∀ e : StoreError, e.is_not_found = false →
        ∀ c2 : UpdaterCache, c2.get_tx_out envRuneFix opFix = .error e →
          update_spendable_input c2 envRuneFix opFix true = .error (.store e))
    ∧ TransactionUpdater.save emptyCache envRuneFix false none none 0 0 7 tscIn
        = Except.map
            (fun cf => { cf with update := { cf.update with
                tx_state_changes := (7, tscIn) :: cf.update.tx_state_changes.tail } })
            (TransactionUpdater.save emptyCache envRuneFix false none none 0 0 7
              { tscIn with inputs := [] ++ [] }) :=
  C10_save_notfound_input envRuneFix false none none 0 0 7 emptyCache tscIn
    opFix [] [] "outpoint" rfl rfl

end Titan
